import Mathlib

/-!
Shallow embedding of the mcp-alpha-vantage server (files `src/client.py`,
`src/server.py`, `src/models.py`) and proofs about its documented behaviour.

Conventions of the embedding:
* The provider's JSON payloads are modelled by the inductive `Json`; a JSON
  object is an association list in insertion order with distinct keys
  (Python `dict` semantics).
* The HTTP layer is abstracted by `HttpOutcome`: either a transport failure
  (timeout / request exception, as caught in `_make_request`) or a decoded
  JSON body.
* Python exceptions are modelled by `PyError`: `alphaVantage` is the base
  class `AlphaVantageError`, `rateLimit` the subclass `RateLimitError`, and
  `otherError` any other exception (pydantic validation errors, attribute
  errors) that the server-level handlers catch as generic `Exception`.
* Python `float` values reached on the ranking path are modelled by `Rat`
  (the source only divides and multiplies decimal-string inputs), Python
  `int` by `Int`.
* Functions that in the source return JSON strings return structured values
  here; the serialization layer is out of scope per the spec.
-/

/-- Python `str.upper()` (ASCII case mapping, character by character). -/
def pyUpper (s : String) : String :=
  String.mk (s.data.map Char.toUpper)

/-- Python `str.strip()`: remove leading and trailing whitespace. -/
def pyStrip (s : String) : String :=
  String.mk (((s.data.dropWhile Char.isWhitespace).reverse.dropWhile
    Char.isWhitespace).reverse)

/-- Split a character list on a separator character; `[]` splits to `[[]]`,
matching Python `"".split(sep) == [""]`. -/
def splitOnChar (sep : Char) : List Char → List (List Char)
  | [] => [[]]
  | c :: cs =>
    let r := splitOnChar sep cs
    if c = sep then [] :: r
    else
      match r with
      | [] => [[c]]
      | g :: gs => (c :: g) :: gs

/-- Python `s.split(sep)` for a one-character separator. -/
def pySplit (s : String) (sep : Char) : List String :=
  (splitOnChar sep s.data).map String.mk

/-- JSON values as decoded by `response.json()`. -/
inductive Json where
  | str (s : String)
  | obj (kvs : List (String × Json))
  | arr (xs : List Json)
  deriving Repr

/-- Python `data[k]` / `data.get(k)` on a dict: first binding of `k`.
Non-objects have no keys. -/
def Json.getKey? (j : Json) (k : String) : Option Json :=
  match j with
  | .obj kvs => kvs.lookup k
  | _ => none

/-- Python truthiness test `not x` for the payload values that occur here:
empty strings, empty objects and empty arrays are falsy. -/
def Json.isFalsy : Json → Bool
  | .str s => s = ""
  | .obj kvs => kvs.isEmpty
  | .arr xs => xs.isEmpty

mutual
/-- Python `repr` of a decoded JSON value (as produced inside `str(dict)`). -/
def Json.pyRepr : Json → String
  | .str s => "\x27" ++ s ++ "\x27"
  | .obj kvs => "\x7b" ++ Json.pyReprObj kvs ++ "\x7d"
  | .arr xs => "[" ++ Json.pyReprArr xs ++ "]"

/-- Comma-separated `repr` of the entries of a JSON object. -/
def Json.pyReprObj : List (String × Json) → String
  | [] => ""
  | [kv] => "\x27" ++ kv.1 ++ "\x27: " ++ Json.pyRepr kv.2
  | kv :: rest => "\x27" ++ kv.1 ++ "\x27: " ++ Json.pyRepr kv.2 ++ ", " ++ Json.pyReprObj rest

/-- Comma-separated `repr` of the elements of a JSON array. -/
def Json.pyReprArr : List Json → String
  | [] => ""
  | [x] => Json.pyRepr x
  | x :: rest => Json.pyRepr x ++ ", " ++ Json.pyReprArr rest
end

/-- Python `str()` of a decoded JSON value, as interpolated into f-strings. -/
def Json.pyStr : Json → String
  | .str s => s
  | j => j.pyRepr

/-- Exceptions raised by the client, by Python class:
`AlphaVantageError` (base), its subclass `RateLimitError`, and any other
exception (e.g. a pydantic `ValidationError`), which only the server-level
generic handler catches. -/
inductive PyError where
  | alphaVantage (msg : String)
  | rateLimit (msg : String)
  | otherError (msg : String)
  deriving Repr, DecidableEq

/-- Name of the Python exception class an error is raised with. -/
def PyError.className : PyError → String
  | .alphaVantage _ => "AlphaVantageError"
  | .rateLimit _ => "RateLimitError"
  | .otherError _ => "Exception"

/-- Exception class of the error of a failed call, `none` on success. -/
def errClassOf {α : Type} : Except PyError α → Option String
  | .error e => some e.className
  | .ok _ => none

instance {ε α : Type} [DecidableEq ε] [DecidableEq α] : DecidableEq (Except ε α) := fun
  | .ok a, .ok b =>
    if h : a = b then .isTrue (by rw [h]) else .isFalse (fun hh => by cases hh; exact h rfl)
  | .error a, .error b =>
    if h : a = b then .isTrue (by rw [h]) else .isFalse (fun hh => by cases hh; exact h rfl)
  | .ok _, .error _ => .isFalse (fun hh => by cases hh)
  | .error _, .ok _ => .isFalse (fun hh => by cases hh)

/-- Outcome of the HTTP GET inside `_make_request`: a timeout, another
request exception (connection failure or non-2xx status raised by
`raise_for_status`), or a decoded JSON body. -/
inductive HttpOutcome where
  | timeout
  | requestFailed (msg : String)
  | success (body : Json)
  deriving Repr

namespace AlphaVantageClient

/-- Embeds `AlphaVantageClient._make_request` (`src/client.py`): transport
failures become `AlphaVantageError`; a decoded body is classified by its
keys, `"Error Message"` first (permanent error), then `"Note"` (rate
limit); otherwise the body is returned unchanged. -/
def make_request (o : HttpOutcome) : Except PyError Json :=
  match o with
  | .timeout => .error (.alphaVantage "Request timed out")
  | .requestFailed m => .error (.alphaVantage ("Request failed: " ++ m))
  | .success data =>
    match data.getKey? "Error Message" with
    | some v => .error (.alphaVantage ("API Error: " ++ v.pyStr))
    | none =>
      match data.getKey? "Note" with
      | some v => .error (.rateLimit ("Rate limit reached: " ++ v.pyStr))
      | none => .ok data

end AlphaVantageClient

/-- Extraction of a pydantic `str` field via `obj.get(k, d)`: absent keys
fall back to the default `d`; a present non-string value fails pydantic
validation of the `str`-typed field. -/
def Json.getStrD (j : Json) (k : String) (d : String) : Except PyError String :=
  match j.getKey? k with
  | none => .ok d
  | some (.str s) => .ok s
  | some _ => .error (.otherError "pydantic validation error")

/-- Record `StockQuote` of `src/models.py` (the `retrieved_at` timestamp is
out of scope; `open` is spelled `open_` as `open` is a Lean keyword). -/
structure StockQuote where
  symbol : String
  price : String
  change : String
  change_percent : String
  volume : String
  latest_trading_day : String
  previous_close : String
  open_ : String
  high : String
  low : String
  deriving Repr, DecidableEq

/-- Construction of the `StockQuote` record inside `get_quote`
(`src/client.py`): every sub-field comes from `quote_data.get(k, "N/A")`,
so an absent sub-field becomes the verbatim sentinel `"N/A"`. -/
def StockQuote.ofJson (symbol : String) (quote_data : Json) :
    Except PyError StockQuote := do
  match quote_data with
  | .obj _ => do
    let price ← quote_data.getStrD "05. price" "N/A"
    let change ← quote_data.getStrD "09. change" "N/A"
    let change_percent ← quote_data.getStrD "10. change percent" "N/A"
    let volume ← quote_data.getStrD "06. volume" "N/A"
    let latest_trading_day ← quote_data.getStrD "07. latest trading day" "N/A"
    let previous_close ← quote_data.getStrD "08. previous close" "N/A"
    let open_ ← quote_data.getStrD "02. open" "N/A"
    let high ← quote_data.getStrD "03. high" "N/A"
    let low ← quote_data.getStrD "04. low" "N/A"
    pure { symbol := pyUpper symbol, price, change, change_percent, volume,
           latest_trading_day, previous_close, open_, high, low }
  | _ => .error (.otherError "AttributeError")

namespace AlphaVantageClient

/-- Embeds `AlphaVantageClient.get_quote` (`src/client.py`): classify the
response, take `"Global Quote"` (default empty), fail with the base error
`"No data found for symbol ..."` when it is missing or empty, otherwise
build the `StockQuote` with `"N/A"` for absent sub-fields. -/
def get_quote (symbol : String) (o : HttpOutcome) : Except PyError StockQuote := do
  let data ← make_request o
  let quote_data := (data.getKey? "Global Quote").getD (.obj [])
  if quote_data.isFalsy then
    .error (.alphaVantage ("No data found for symbol " ++ symbol))
  else
    StockQuote.ofJson symbol quote_data

end AlphaVantageClient

/-- Extraction of a required pydantic `str` field (a field with an alias and
no default, as in `DailyPrice` of `src/models.py`): an absent key or a
non-string value raises a pydantic `ValidationError`. -/
def Json.getStrReq (j : Json) (k : String) : Except PyError String :=
  match j.getKey? k with
  | some (.str s) => .ok s
  | _ => .error (.otherError "pydantic validation error")

/-- Record `DailyPrice` of `src/models.py`: one OHLCV bar, all fields
required, populated by the numbered-prefix aliases. -/
structure DailyPrice where
  open_ : String
  high : String
  low : String
  close : String
  volume : String
  deriving Repr, DecidableEq

/-- Construction `DailyPrice(**values)`: pydantic validates every aliased
field; any absent or non-string sub-field raises `ValidationError`. -/
def DailyPrice.ofJson (v : Json) : Except PyError DailyPrice := do
  let open_ ← v.getStrReq "1. open"
  let high ← v.getStrReq "2. high"
  let low ← v.getStrReq "3. low"
  let close ← v.getStrReq "4. close"
  let volume ← v.getStrReq "5. volume"
  pure { open_, high, low, close, volume }

/-- Result dictionary of `AlphaVantageClient.get_daily_prices`:
`recent_days` keeps the (date, bar) pairs in the order the comprehension
iterates them (descending date). -/
structure DailyData where
  symbol : String
  recent_days : List (String × DailyPrice)
  total_days_available : Nat
  deriving Repr, DecidableEq

/-- Lexicographic less-or-equal on character lists by code point, the
order Python uses to compare strings. -/
def charListLe : List Char → List Char → Bool
  | [], _ => true
  | _ :: _, [] => false
  | a :: as, b :: bs =>
    if a.toNat < b.toNat then true
    else if b.toNat < a.toNat then false
    else charListLe as bs

/-- Python `a <= b` on strings. -/
def strLe (a b : String) : Prop := charListLe a.data b.data = true

/-- Reversed string order, the comparison `sorted(keys, reverse=True)`
effectively sorts by. -/
def strGe (a b : String) : Prop := strLe b a

instance : DecidableRel strLe := fun a b =>
  instDecidableEqBool (charListLe a.data b.data) true

instance : DecidableRel strGe := fun a b =>
  inferInstanceAs (Decidable (strLe b a))

/-- Python `sorted(l, reverse=True)` on strings: the stable descending
sort, realised by insertion sort with the reversed order. -/
def pySortDesc (l : List String) : List String :=
  l.insertionSort strGe

/-- Left-to-right effectful map over `Except`, the semantics of the Python
for-loops that build a result collection and let the first exception
propagate. -/
def mapExcept {γ δ : Type} (f : γ → Except PyError δ) :
    List γ → Except PyError (List δ)
  | [] => .ok []
  | x :: xs => do
    let y ← f x
    let ys ← mapExcept f xs
    pure (y :: ys)

namespace AlphaVantageClient

/-- Embeds `AlphaVantageClient.get_daily_prices` (`src/client.py`):
classify, take `"Time Series (Daily)"` (default empty, missing/empty is the
not-found `AlphaVantageError`), parse every bar, then keep the 5 largest
date keys in descending order while reporting the full series size. -/
def get_daily_prices (symbol : String) (outputsize : String) (o : HttpOutcome) :
    Except PyError DailyData := do
  let _ := outputsize
  let data ← make_request o
  let time_series := (data.getKey? "Time Series (Daily)").getD (.obj [])
  if time_series.isFalsy then
    .error (.alphaVantage ("No daily data found for " ++ symbol))
  else
    match time_series with
    | .obj kvs => do
      let parsed_series ← mapExcept (fun kv => do
        let dp ← DailyPrice.ofJson kv.2
        pure (kv.1, dp)) kvs
      let recent_dates := (pySortDesc (parsed_series.map Prod.fst)).take 5
      let recent_data := recent_dates.filterMap
        (fun d => (parsed_series.lookup d).map (fun dp => (d, dp)))
      pure { symbol := pyUpper symbol, recent_days := recent_data,
             total_days_available := kvs.length }
    | _ => .error (.otherError "AttributeError")

end AlphaVantageClient

/-- Record `SymbolMatch` of `src/models.py`. -/
structure SymbolMatch where
  symbol : String
  name : String
  type : String
  region : String
  currency : String
  deriving Repr, DecidableEq

/-- Construction of one `SymbolMatch` inside the loop of `search_symbols`
(`src/client.py`): every sub-field comes from `match.get(k, "")`, so an
absent sub-field becomes the empty string (not `"N/A"`). -/
def SymbolMatch.ofJson (m : Json) : Except PyError SymbolMatch :=
  match m with
  | .obj _ => do
    let symbol ← m.getStrD "1. symbol" ""
    let name ← m.getStrD "2. name" ""
    let type ← m.getStrD "3. type" ""
    let region ← m.getStrD "4. region" ""
    let currency ← m.getStrD "8. currency" ""
    pure { symbol, name, type, region, currency }
  | _ => .error (.otherError "AttributeError")

namespace AlphaVantageClient

/-- Embeds `AlphaVantageClient.search_symbols` (`src/client.py`): classify,
take `"bestMatches"` (default empty list, missing/empty is the not-found
`AlphaVantageError`), and map the first 10 matches, with the empty string
as fallback for absent sub-fields. -/
def search_symbols (keywords : String) (o : HttpOutcome) :
    Except PyError (List SymbolMatch) := do
  let data ← make_request o
  let bestMatches := (data.getKey? "bestMatches").getD (.arr [])
  if bestMatches.isFalsy then
    .error (.alphaVantage ("No symbols found for \x27" ++ keywords ++ "\x27"))
  else
    match bestMatches with
    | .arr xs => mapExcept SymbolMatch.ofJson (xs.take 10)
    | _ => .error (.otherError "TypeError")

/-- Modelled from the spec: `AlphaVantageClient.get_batch_quotes` is called
by `analyze_top_performers` in `src/server.py` but its definition is absent
from the sources. Per spec section 4.4 (BatchFetcher) it fetches one quote
per symbol sequentially in input order, and a symbol whose fetch fails is
logged and skipped, not propagated. The per-symbol fetch is abstracted as
an oracle `fetch`; `none` is a per-symbol failure. -/
def get_batch_quotes (fetch : String → Option StockQuote) (symbols : List String) :
    List StockQuote :=
  symbols.filterMap fetch

end AlphaVantageClient

/-- Numeric value of a list of decimal digit characters; `none` if any
character is not a digit. The empty list yields 0 (callers guard it). -/
def decDigits? (cs : List Char) : Option Nat :=
  cs.foldl
    (fun acc c => acc.bind (fun a => if c.isDigit then some (10 * a + (c.toNat - 48)) else none))
    (some 0)

/-- Python `float(s)` on the decimal literals the provider emits: optional
surrounding whitespace, optional sign, digits with an optional single
decimal point (at least one digit overall). Anything else (in particular
the provider's `"N/A"` sentinel or strings with a trailing `"%"`) raises
`ValueError`, modelled as `none`. The exact-value result is a `Rat`. -/
def parseFloat? (s : String) : Option Rat :=
  let cs := (pyStrip s).data
  let core : Bool × List Char :=
    match cs with
    | '+' :: r => (false, r)
    | '-' :: r => (true, r)
    | r => (false, r)
  let magnitude? : Option Rat :=
    match splitOnChar '.' core.2 with
    | [ip] =>
      if ip.isEmpty then none
      else (decDigits? ip).map (fun n => (n : Rat))
    | [ip, fp] =>
      if ip.isEmpty && fp.isEmpty then none
      else do
        let i ← decDigits? ip
        let f ← decDigits? fp
        some ((i : Rat) + (f : Rat) / ((10 : Rat) ^ fp.length))
    | _ => none
  magnitude?.map (fun v => if core.1 then -v else v)

/-- Python `int(s)`: optional surrounding whitespace, optional sign, one or
more decimal digits; anything else raises `ValueError`, modelled as
`none`. -/
def parseInt? (s : String) : Option Int :=
  let cs := (pyStrip s).data
  let core : Int × List Char :=
    match cs with
    | '+' :: r => (1, r)
    | '-' :: r => (-1, r)
    | r => (1, r)
  if core.2.isEmpty then none
  else (decDigits? core.2).map (fun n => core.1 * (n : Int))

/-- Record `PerformerMetrics` of `src/models.py`, with the numeric fields
the ranking path parses. -/
structure PerformerMetrics where
  symbol : String
  current_price : Rat
  previous_close : Rat
  change : Rat
  change_percent : Rat
  volume : Int
  period : String
  deriving Repr, DecidableEq

/-- Record `TopPerformersResult` of `src/models.py`. -/
structure TopPerformersResult where
  period : String
  metric : String
  performers : List PerformerMetrics
  count : Nat
  analyzed_count : Nat
  deriving Repr, DecidableEq

/-- Record `ErrorResponse` of `src/models.py` as produced by
`format_error` in `src/server.py` (timestamp out of scope). -/
structure ErrorResponse where
  error : String
  symbol : Option String := none
  query : Option String := none
  deriving Repr, DecidableEq

/-- Loop body of the `for quote in quotes` conversion inside
`analyze_top_performers` (`src/server.py`): parse the four numeric string
fields, recompute `change_percent` from `change` and `previous_close`
(never from the provider's `change_percent` string), and skip the quote
(`none`) if any parse raises. -/
def performerOfQuote (quote : StockQuote) : Option PerformerMetrics := do
  let current_price ← parseFloat? quote.price
  let previous_close ← parseFloat? quote.previous_close
  let change ← parseFloat? quote.change
  let volume ← parseInt? quote.volume
  some { symbol := quote.symbol, current_price, previous_close, change,
         change_percent := if previous_close > 0 then change / previous_close * 100 else 0,
         volume, period := "1day" }

/-- Python slice `l[:limit]` for an `int` argument of either sign. -/
def pyTake {α : Type} (limit : Int) (l : List α) : List α :=
  if 0 ≤ limit then l.take limit.toNat
  else l.take (l.length - (-limit).toNat)

/-- Python stable sort `performers.sort(key=..., reverse=True)`: descending
by the key, ties in original order — insertion sort with the reversed key
order is exactly this stable sort. -/
def pySortDescBy {α β : Type} [LinearOrder β] (key : α → β) (l : List α) : List α :=
  l.insertionSort (fun a b => key b ≤ key a)

/-- Symbol parsing line of `analyze_top_performers` (`src/server.py`):
split the input on commas, drop entries that are blank after stripping,
strip and upper-case the rest. -/
def parse_symbol_list (symbols : String) : List String :=
  ((pySplit symbols ',').filter (fun s => pyStrip s ≠ "")).map (fun s => pyUpper (pyStrip s))

/-- Result of one server tool invocation: the structured value the
serialized JSON would carry (or the `ErrorResponse`), together with the
log of provider requests issued on its behalf. -/
structure ToolRun (ρ : Type) (χ : Type) where
  result : Except ErrorResponse ρ
  calls : List χ
  deriving Repr

namespace Server

/-- Embeds the tool `get_daily_prices` of `src/server.py`: an `outputsize`
outside `\x7b"compact", "full"\x7d` is rejected by `format_error` before the client
(and hence the transport) is invoked; otherwise the client call runs and
each error class is converted by its handler. Each issued request is
logged as the `(symbol, outputsize)` pair. -/
def get_daily_prices (symbol : String) (outputsize : String) (o : HttpOutcome) :
    ToolRun DailyData (String × String) :=
  if outputsize ≠ "compact" && outputsize ≠ "full" then
    { result := .error { error := "outputsize must be \x27compact\x27 or \x27full\x27",
                         symbol := some symbol },
      calls := [] }
  else
    match AlphaVantageClient.get_daily_prices symbol outputsize o with
    | .ok d => { result := .ok d, calls := [(symbol, outputsize)] }
    | .error (.rateLimit m) =>
      { result := .error { error := "Rate limit reached: " ++ m, symbol := some symbol },
        calls := [(symbol, outputsize)] }
    | .error (.alphaVantage m) =>
      { result := .error { error := "Error fetching daily prices: " ++ m, symbol := some symbol },
        calls := [(symbol, outputsize)] }
    | .error (.otherError m) =>
      { result := .error { error := "Unexpected error: " ++ m, symbol := some symbol },
        calls := [(symbol, outputsize)] }

/-- Embeds the tool `analyze_top_performers` of `src/server.py`: parse and
validate the symbol list (emptiness, the 50-symbol cap) and the metric
name before any fetch; then fetch quotes through `get_batch_quotes`
(logging one request per listed symbol, in order), convert them to
`PerformerMetrics` skipping quotes whose numeric fields fail to parse,
sort by the chosen metric descending (stable), and truncate to `limit`. -/
def analyze_top_performers (fetch : String → Option StockQuote)
    (symbols : String) (limit : Int) (metric : String) :
    ToolRun TopPerformersResult String :=
  let symbol_list := parse_symbol_list symbols
  if symbol_list.isEmpty then
    { result := .error { error := "No symbols provided" }, calls := [] }
  else if symbol_list.length > 50 then
    { result := .error { error := "Maximum 50 symbols allowed to respect rate limits" },
      calls := [] }
  else if metric ≠ "change_percent" && metric ≠ "volume" then
    { result := .error { error := "metric must be \x27change_percent\x27 or \x27volume\x27" },
      calls := [] }
  else
    let quotes := AlphaVantageClient.get_batch_quotes fetch symbol_list
    if quotes.isEmpty then
      { result := .error { error := "Unable to fetch data for any of the provided symbols" },
        calls := symbol_list }
    else
      let performers := quotes.filterMap performerOfQuote
      if performers.isEmpty then
        { result := .error { error := "Unable to calculate metrics for any stocks" },
          calls := symbol_list }
      else
        let sorted :=
          if metric = "change_percent" then pySortDescBy (fun x => x.change_percent) performers
          else pySortDescBy (fun x => x.volume) performers
        let top_performers := pyTake limit sorted
        { result := .ok { period := "1day", metric := metric, performers := top_performers,
                          count := top_performers.length,
                          analyzed_count := performers.length },
          calls := symbol_list }

end Server

/-- Fixture: a quote whose numeric fields are integer strings and whose
previous close is zero (exercising the `else 0.0` branch). -/
def quoteA : StockQuote :=
  { symbol := "AAA", price := "100", change := "5", change_percent := "1.30%",
    volume := "70", latest_trading_day := "2024-01-15", previous_close := "0",
    open_ := "99", high := "101", low := "98" }

/-- Fixture: a second such quote with a smaller volume. -/
def quoteC : StockQuote :=
  { symbol := "CCC", price := "40", change := "2", change_percent := "0.90%",
    volume := "50", latest_trading_day := "2024-01-15", previous_close := "0",
    open_ := "39", high := "41", low := "38" }

/-- Fixture: a per-symbol fetch oracle where "AAA" and "CCC" succeed and
every other symbol (in particular "BBB") fails. -/
def fetchEx : String → Option StockQuote := fun s =>
  if s = "AAA" then some quoteA else if s = "CCC" then some quoteC else none

/-- Fixture: the performer record `performerOfQuote` derives from
`quoteA`. -/
def performerA : PerformerMetrics :=
  { symbol := "AAA", current_price := 100, previous_close := 0, change := 5,
    change_percent := 0, volume := 70, period := "1day" }

/-- Fixture: the performer record `performerOfQuote` derives from
`quoteC`. -/
def performerC : PerformerMetrics :=
  { symbol := "CCC", current_price := 40, previous_close := 0, change := 2,
    change_percent := 0, volume := 50, period := "1day" }

/-- Fixture: a well-formed OHLCV bar object. -/
def barEx : Json :=
  Json.obj [("1. open", Json.str "1"), ("2. high", Json.str "2"),
            ("3. low", Json.str "0"), ("4. close", Json.str "1"),
            ("5. volume", Json.str "10")]

/-- Fixture: the parsed form of `barEx`. -/
def barExParsed : DailyPrice :=
  { open_ := "1", high := "2", low := "0", close := "1", volume := "10" }

/-- Fixture: six dated bars in scrambled order. -/
def dailyKvsEx : List (String × Json) :=
  [("2024-01-12", barEx), ("2024-01-15", barEx), ("2024-01-10", barEx),
   ("2024-01-14", barEx), ("2024-01-11", barEx), ("2024-01-13", barEx)]

/-- Fixture: a daily time-series payload with six dates in scrambled
order. -/
def dailyBodyEx : Json :=
  Json.obj [("Time Series (Daily)", Json.obj dailyKvsEx)]

/-- Fixture: the daily-price result for `dailyBodyEx`: the five most
recent dates, descending. -/
def dailyResEx : DailyData :=
  { symbol := "AAPL",
    recent_days := [("2024-01-15", barExParsed), ("2024-01-14", barExParsed),
      ("2024-01-13", barExParsed), ("2024-01-12", barExParsed),
      ("2024-01-11", barExParsed)],
    total_days_available := 6 }

/-- Fixture: a comma-separated list of 51 symbols. -/
def sym51 : String := String.intercalate "," (List.replicate 51 "S")


theorem charListLe_total : ∀ a b : List Char, charListLe a b = true ∨ charListLe b a = true
  | [], _ => .inl rfl
  | _ :: _, [] => .inr rfl
  | a :: as, b :: bs => by
    by_cases hab : a.toNat < b.toNat
    · exact .inl (by simp [charListLe, hab])
    · by_cases hba : b.toNat < a.toNat
      · exact .inr (by simp [charListLe, hba])
      · rcases charListLe_total as bs with h | h
        · exact .inl (by simp [charListLe, hab, hba, h])
        · exact .inr (by simp [charListLe, hab, hba, h])

theorem charListLe_trans :
    ∀ a b c : List Char, charListLe a b = true → charListLe b c = true →
      charListLe a c = true
  | [], _, _, _, _ => rfl
  | _ :: _, [], _, hab, _ => by simp [charListLe] at hab
  | _ :: _, _ :: _, [], _, hbc => by simp [charListLe] at hbc
  | a :: as, b :: bs, c :: cs, hab, hbc => by
    unfold charListLe at hab hbc ⊢
    by_cases h1 : a.toNat < b.toNat
    · by_cases h2 : b.toNat < c.toNat
      · simp [show a.toNat < c.toNat by omega]
      · by_cases h2x : c.toNat < b.toNat
        · simp [h2, h2x] at hbc
        · simp [show a.toNat < c.toNat by omega]
    · by_cases h1x : b.toNat < a.toNat
      · simp [h1, h1x] at hab
      · by_cases h2 : b.toNat < c.toNat
        · simp [show a.toNat < c.toNat by omega]
        · by_cases h2x : c.toNat < b.toNat
          · simp [h2, h2x] at hbc
          · have hac1 : ¬ a.toNat < c.toNat := by omega
            have hac2 : ¬ c.toNat < a.toNat := by omega
            simp only [h1, h1x, if_false] at hab
            simp only [h2, h2x, if_false] at hbc
            simp only [hac1, hac2, if_false]
            exact charListLe_trans as bs cs hab hbc

theorem sorted_pySortDesc (l : List String) : (pySortDesc l).Pairwise strGe := by
  haveI : IsTotal String strGe := ⟨fun a b => (charListLe_total b.data a.data).imp id id⟩
  haveI : IsTrans String strGe := ⟨fun _ _ _ hab hbc => charListLe_trans _ _ _ hbc hab⟩
  exact List.sorted_insertionSort strGe l

theorem perm_pySortDesc (l : List String) : List.Perm (pySortDesc l) l :=
  List.perm_insertionSort strGe l

theorem sorted_pySortDescBy {α β : Type} [LinearOrder β] (key : α → β) (l : List α) :
    (pySortDescBy key l).Pairwise (fun a b => key b ≤ key a) := by
  haveI : IsTotal α (fun a b => key b ≤ key a) := ⟨fun a b => le_total (key b) (key a)⟩
  haveI : IsTrans α (fun a b => key b ≤ key a) := ⟨fun _ _ _ h1 h2 => le_trans h2 h1⟩
  exact List.sorted_insertionSort _ l

theorem perm_pySortDescBy {α β : Type} [LinearOrder β] (key : α → β) (l : List α) :
    List.Perm (pySortDescBy key l) l :=
  List.perm_insertionSort _ l

theorem filter_orderedInsert_key_eq {α β : Type} [LinearOrder β] (key : α → β)
    (v : β) (x : α) (hx : key x = v) :
    ∀ l : List α,
      ((l.orderedInsert (fun a b => key b ≤ key a) x).filter (fun a => key a = v)) =
        x :: l.filter (fun a => key a = v)
  | [] => by simp [List.orderedInsert, List.filter_cons, hx]
  | y :: ys => by
    by_cases h : key y ≤ key x
    · rw [List.orderedInsert, if_pos h, List.filter_cons_of_pos (by simp [hx])]
    · have hy : ¬ (key y = v) := fun hyv => h (by rw [hyv, ← hx])
      rw [List.orderedInsert, if_neg h, List.filter_cons_of_neg (by simp [hy]),
        filter_orderedInsert_key_eq key v x hx ys,
        List.filter_cons_of_neg (by simp [hy])]

theorem filter_orderedInsert_key_ne {α β : Type} [LinearOrder β] (key : α → β)
    (v : β) (x : α) (hx : ¬ key x = v) :
    ∀ l : List α,
      ((l.orderedInsert (fun a b => key b ≤ key a) x).filter (fun a => key a = v)) =
        l.filter (fun a => key a = v)
  | [] => by simp [List.orderedInsert, List.filter_cons, hx]
  | y :: ys => by
    by_cases h : key y ≤ key x
    · rw [List.orderedInsert, if_pos h, List.filter_cons_of_neg (by simp [hx])]
    · by_cases hy : key y = v
      · rw [List.orderedInsert, if_neg h, List.filter_cons_of_pos (by simp [hy]),
          filter_orderedInsert_key_ne key v x hx ys,
          List.filter_cons_of_pos (by simp [hy])]
      · rw [List.orderedInsert, if_neg h, List.filter_cons_of_neg (by simp [hy]),
          filter_orderedInsert_key_ne key v x hx ys,
          List.filter_cons_of_neg (by simp [hy])]

theorem filter_insertionSortDesc {α β : Type} [LinearOrder β] (key : α → β) (v : β) :
    ∀ l : List α,
      ((l.insertionSort (fun a b => key b ≤ key a)).filter (fun a => key a = v)) =
        l.filter (fun a => key a = v)
  | [] => rfl
  | x :: xs => by
    by_cases hx : key x = v
    · rw [List.insertionSort, filter_orderedInsert_key_eq key v x hx,
        filter_insertionSortDesc key v xs, List.filter_cons_of_pos (by simp [hx])]
    · rw [List.insertionSort, filter_orderedInsert_key_ne key v x hx,
        filter_insertionSortDesc key v xs, List.filter_cons_of_neg (by simp [hx])]

theorem filter_pySortDescBy {α β : Type} [LinearOrder β] (key : α → β) (v : β)
    (l : List α) :
    ((pySortDescBy key l).filter (fun a => key a = v)) = l.filter (fun a => key a = v) := by
  simp only [pySortDescBy]
  exact filter_insertionSortDesc key v l

theorem lookup_isSome_of_mem_keys {γ : Type} :
    ∀ l : List (String × γ), ∀ d : String, d ∈ l.map Prod.fst →
      (l.lookup d).isSome = true
  | [], _, h => by simp at h
  | kv :: l, d, h => by
    rw [List.map_cons, List.mem_cons] at h
    by_cases he : d = kv.1
    · simp [List.lookup, beq_iff_eq, he]
    · have h1 : d ∈ l.map Prod.fst := h.resolve_left he
      have hb : (d == kv.1) = false := beq_eq_false_iff_ne.mpr he
      simp [List.lookup, hb, lookup_isSome_of_mem_keys l d h1]

theorem map_fst_filterMap_lookup {γ : Type} (parsed : List (String × γ)) :
    ∀ ds : List String, (∀ d ∈ ds, d ∈ parsed.map Prod.fst) →
      ((ds.filterMap (fun d => (parsed.lookup d).map (fun dp => (d, dp)))).map
        Prod.fst) = ds
  | [], _ => rfl
  | d :: ds, h => by
    have hs : (parsed.lookup d).isSome = true :=
      lookup_isSome_of_mem_keys parsed d (h d (List.mem_cons_self d ds))
    obtain ⟨dp, hdp⟩ := Option.isSome_iff_exists.mp hs
    rw [List.filterMap_cons, hdp]
    simpa using map_fst_filterMap_lookup parsed ds
      (fun x hx => h x (List.mem_cons_of_mem d hx))

theorem length_filterMap_isSome {γ δ : Type} (f : γ → Option δ) :
    ∀ l : List γ, (l.filterMap f).length = (l.filter (fun x => (f x).isSome)).length
  | [] => rfl
  | x :: l => by
    cases h : f x <;>
      simp [List.filterMap_cons, List.filter_cons, h, length_filterMap_isSome f l]

theorem except_bind_ok {α β : Type} (x : Except PyError α) (f : α → Except PyError β)
    (b : β) : (x >>= f) = .ok b ↔ ∃ a, x = .ok a ∧ f a = .ok b := by
  cases x <;> simp [Bind.bind, Except.bind]

/-- C1 counterexample: in `_make_request` the `"Error Message"` check runs
before the `"Note"` check, so a payload carrying both keys is classified
as a permanent `AlphaVantageError`, not as a `RateLimitError`, refuting
the claim at this concrete payload. -/
theorem c1_counterexample :
    (Json.obj [("Error Message", Json.str "bad"), ("Note", Json.str "busy")]).getKey?
        "Note" = some (Json.str "busy") ∧
    AlphaVantageClient.make_request (.success
      (Json.obj [("Error Message", Json.str "bad"), ("Note", Json.str "busy")])) =
      .error (.alphaVantage "API Error: bad") ∧
    errClassOf (AlphaVantageClient.make_request (.success
      (Json.obj [("Error Message", Json.str "bad"), ("Note", Json.str "busy")]))) ≠
      some "RateLimitError" := by
  refine ⟨rfl, rfl, ?_⟩
  intro h
  simp [AlphaVantageClient.make_request, Json.getKey?, List.lookup, Json.pyStr,
    errClassOf, PyError.className] at h

/-- C1 (amended): whenever the payload carries `"Note"` and does not carry
`"Error Message"`, classification yields a `RateLimitError` and never the
not-found error, regardless of the rest of the payload (in particular,
regardless of whether `"Global Quote"` is absent or empty). -/
theorem c1_note_yields_rate_limit (sym : String) (data note : Json)
    (hem : data.getKey? "Error Message" = none)
    (hnote : data.getKey? "Note" = some note) :
    AlphaVantageClient.get_quote sym (.success data) =
      .error (.rateLimit ("Rate limit reached: " ++ note.pyStr)) ∧
    errClassOf (AlphaVantageClient.get_quote sym (.success data)) =
      some "RateLimitError" := by
  have hm : AlphaVantageClient.make_request (.success data) =
      .error (.rateLimit ("Rate limit reached: " ++ note.pyStr)) := by
    simp [AlphaVantageClient.make_request, hem, hnote]
  have hq : AlphaVantageClient.get_quote sym (.success data) =
      .error (.rateLimit ("Rate limit reached: " ++ note.pyStr)) := by
    simp [AlphaVantageClient.get_quote, hm, Bind.bind, Except.bind]
  exact ⟨hq, by rw [hq]; rfl⟩

/-- C1 witness: a concrete rate-limited payload whose expected data key is
present but empty still classifies as a rate limit, not as not-found. -/
theorem c1_witness :
    (Json.obj [("Global Quote", Json.obj []), ("Note", Json.str "busy")]).getKey?
        "Error Message" = none ∧
    (Json.obj [("Global Quote", Json.obj []), ("Note", Json.str "busy")]).getKey?
        "Note" = some (Json.str "busy") ∧
    AlphaVantageClient.get_quote "AAPL" (.success
      (Json.obj [("Global Quote", Json.obj []), ("Note", Json.str "busy")])) =
      .error (.rateLimit ("Rate limit reached: " ++ (Json.str "busy").pyStr)) :=
  ⟨rfl, rfl,
    (c1_note_yields_rate_limit "AAPL"
      (Json.obj [("Global Quote", Json.obj []), ("Note", Json.str "busy")])
      (Json.str "busy") rfl rfl).1⟩

/-- C7: the `get_daily_prices` tool rejects any `outputsize` outside
compact/full with a validation `ErrorResponse` and issues no provider
request at all. -/
theorem c7_outputsize_validated (symbol outputsize : String) (o : HttpOutcome)
    (h1 : outputsize ≠ "compact") (h2 : outputsize ≠ "full") :
    Server.get_daily_prices symbol outputsize o =
      { result := .error { error := "outputsize must be \x27compact\x27 or \x27full\x27",
                           symbol := some symbol },
        calls := [] } := by
  simp [Server.get_daily_prices, h1, h2]

/-- C7 witness: `outputsize = "weekly"` is rejected without any provider
call, whatever the transport would have answered. -/
theorem c7_witness :
    ("weekly" : String) ≠ "compact" ∧ ("weekly" : String) ≠ "full" ∧
    Server.get_daily_prices "AAPL" "weekly" .timeout =
      { result := .error { error := "outputsize must be \x27compact\x27 or \x27full\x27",
                           symbol := some "AAPL" },
        calls := [] } :=
  ⟨by decide, by decide,
    c7_outputsize_validated "AAPL" "weekly" .timeout (by decide) (by decide)⟩

/-- C5: `analyze_top_performers` normalizes its comma-separated symbols
argument (strip, upper-case, drop blanks) and rejects — by a validation
error, with no provider request logged — an empty list, a list of more
than 50 symbols, and a metric outside change_percent/volume. -/
theorem c5_symbol_validation (fetch : String → Option StockQuote)
    (symbols : String) (limit : Int) (metric : String) :
    (parse_symbol_list "aapl, msft ,, " = ["AAPL", "MSFT"]) ∧
    (parse_symbol_list symbols = [] →
      Server.analyze_top_performers fetch symbols limit metric =
        { result := .error { error := "No symbols provided" }, calls := [] }) ∧
    ((parse_symbol_list symbols).length > 50 →
      Server.analyze_top_performers fetch symbols limit metric =
        { result := .error
            { error := "Maximum 50 symbols allowed to respect rate limits" },
          calls := [] }) ∧
    (metric ≠ "change_percent" → metric ≠ "volume" →
      Server.analyze_top_performers fetch symbols limit metric =
        { result := .error
            { error := "metric must be \x27change_percent\x27 or \x27volume\x27" },
          calls := [] } ∨
      Server.analyze_top_performers fetch symbols limit metric =
        { result := .error { error := "No symbols provided" }, calls := [] } ∨
      Server.analyze_top_performers fetch symbols limit metric =
        { result := .error
            { error := "Maximum 50 symbols allowed to respect rate limits" },
          calls := [] }) := by
  refine ⟨by decide, ?_, ?_, ?_⟩
  · intro h
    simp [Server.analyze_top_performers, h]
  · intro h
    have hne : ¬ parse_symbol_list symbols = [] := by
      intro hx
      rw [hx] at h
      simp at h
    simp [Server.analyze_top_performers, List.isEmpty_iff, hne, h]
  · intro h1 h2
    by_cases he : parse_symbol_list symbols = []
    · exact .inr (.inl (by simp [Server.analyze_top_performers, he]))
    · by_cases hl : (parse_symbol_list symbols).length > 50
      · exact .inr (.inr (by simp [Server.analyze_top_performers, List.isEmpty_iff, he, hl]))
      · exact .inl (by simp [Server.analyze_top_performers, List.isEmpty_iff, he, hl, h1, h2])

set_option maxRecDepth 8192 in
/-- C5 witness: 51 symbols are rejected before any network call, as is an
unknown metric and an all-blank symbols string. -/
theorem c5_witness :
    (parse_symbol_list sym51).length > 50 ∧
    Server.analyze_top_performers fetchEx sym51 10 "volume" =
      { result := .error
          { error := "Maximum 50 symbols allowed to respect rate limits" },
        calls := [] } ∧
    parse_symbol_list " , " = [] ∧
    Server.analyze_top_performers fetchEx " , " 10 "volume" =
      { result := .error { error := "No symbols provided" }, calls := [] } :=
  ⟨by decide,
    (c5_symbol_validation fetchEx sym51 10 "volume").2.2.1 (by decide),
    by decide,
    (c5_symbol_validation fetchEx " , " 10 "volume").2.1 (by decide)⟩

/-- C10: `limit` is sliced, never validated; whenever the tool returns a
ranked result and `limit` is non-negative, the returned `count` is
`min limit analyzed_count`, hence never exceeds `analyzed_count`. -/
theorem c10_count_is_min (fetch : String → Option StockQuote)
    (symbols : String) (limit : Int) (metric : String) (r : TopPerformersResult)
    (h0 : 0 ≤ limit)
    (h : (Server.analyze_top_performers fetch symbols limit metric).result = .ok r) :
    r.count = min limit.toNat r.analyzed_count ∧ r.count ≤ r.analyzed_count := by
  simp only [Server.analyze_top_performers] at h
  split at h
  · simp at h
  · split at h
    · simp at h
    · split at h
      · simp at h
      · split at h
        · simp at h
        · split at h
          · simp at h
          · simp only [Except.ok.injEq] at h
            subst h
            constructor
            · show (pyTake limit _).length = min limit.toNat _
              rw [pyTake, if_pos h0, List.length_take]
              congr 1
              split <;> simp [pySortDescBy, List.length_insertionSort]
            · show (pyTake limit _).length ≤ _
              rw [pyTake, if_pos h0, List.length_take]
              refine le_trans (Nat.min_le_right _ _) ?_
              split <;> simp [pySortDescBy, List.length_insertionSort]

/-- C10 witness: a concrete successful ranking with `limit = 1` over two
analyzed symbols has `count = 1 = min 1 2`. -/
theorem c10_witness :
    (0 : Int) ≤ 1 ∧
    (Server.analyze_top_performers fetchEx "AAA,BBB,CCC" 1 "volume").result =
      .ok { period := "1day", metric := "volume", performers := [performerA],
            count := 1, analyzed_count := 2 } ∧
    (1 : Nat) = min (1 : Int).toNat 2 ∧ (1 : Nat) ≤ 2 := by
  refine ⟨by decide, by decide, ?_, by decide⟩
  have := c10_count_is_min fetchEx "AAA,BBB,CCC" 1 "volume"
    { period := "1day", metric := "volume", performers := [performerA],
      count := 1, analyzed_count := 2 } (by decide) (by decide)
  exact this.1

/-- C8 counterexample: the not-found failure for an empty quote object is
raised with exception class `AlphaVantageError` — exactly the class of
transport errors (timeout) and of permanent classification errors
(`"Error Message"` payloads) — so it is not a distinct error kind from
those, refuting the claim at these concrete inputs. -/
theorem c8_counterexample :
    errClassOf (AlphaVantageClient.get_quote "AAPL"
      (.success (Json.obj [("Global Quote", Json.obj [])]))) =
        some "AlphaVantageError" ∧
    errClassOf (AlphaVantageClient.get_quote "AAPL" .timeout) =
        some "AlphaVantageError" ∧
    errClassOf (AlphaVantageClient.get_quote "AAPL"
      (.success (Json.obj [("Error Message", Json.str "Invalid API call")]))) =
        some "AlphaVantageError" :=
  ⟨rfl, rfl, rfl⟩

/-- C8 (amended): a missing or empty top-level key yields a not-found
failure with its own message template, and this failure is distinct from
the rate-limit kind (`RateLimitError`); however it is raised as the base
class `AlphaVantageError`, the same exception class transport errors and
permanent classification errors use, so the kinds differ only in message
text. -/
theorem c8_not_found_shares_base_class (sym kw : String) (body : Json)
    (hem : body.getKey? "Error Message" = none)
    (hnote : body.getKey? "Note" = none) :
    (((body.getKey? "Global Quote").getD (Json.obj [])).isFalsy = true →
      AlphaVantageClient.get_quote sym (.success body) =
        .error (.alphaVantage ("No data found for symbol " ++ sym))) ∧
    (((body.getKey? "bestMatches").getD (Json.arr [])).isFalsy = true →
      AlphaVantageClient.search_symbols kw (.success body) =
        .error (.alphaVantage ("No symbols found for \x27" ++ kw ++ "\x27"))) ∧
    (∀ osz, ((body.getKey? "Time Series (Daily)").getD (Json.obj [])).isFalsy = true →
      AlphaVantageClient.get_daily_prices sym osz (.success body) =
        .error (.alphaVantage ("No daily data found for " ++ sym))) ∧
    errClassOf (AlphaVantageClient.get_quote sym .timeout) =
      some "AlphaVantageError" ∧
    PyError.className (.alphaVantage ("No data found for symbol " ++ sym)) ≠
      PyError.className (.rateLimit "Rate limit reached") := by
  have hm : AlphaVantageClient.make_request (.success body) = .ok body := by
    simp [AlphaVantageClient.make_request, hem, hnote]
  refine ⟨?_, ?_, ?_, rfl, by simp [PyError.className]⟩
  · intro h
    simp [AlphaVantageClient.get_quote, hm, Bind.bind, Except.bind, h]
  · intro h
    simp [AlphaVantageClient.search_symbols, hm, Bind.bind, Except.bind, h]
  · intro osz h
    simp [AlphaVantageClient.get_daily_prices, hm, Bind.bind, Except.bind, h]

/-- C8 witness: concrete empty-quote, empty-match-list and absent-series
payloads all produce their not-found `AlphaVantageError`. -/
theorem c8_witness :
    (Json.obj [("Global Quote", Json.obj []), ("bestMatches", Json.arr [])]).getKey?
        "Error Message" = none ∧
    (Json.obj [("Global Quote", Json.obj []), ("bestMatches", Json.arr [])]).getKey?
        "Note" = none ∧
    ((((Json.obj [("Global Quote", Json.obj []), ("bestMatches", Json.arr [])]).getKey?
        "Global Quote").getD (Json.obj [])).isFalsy = true) ∧
    AlphaVantageClient.get_quote "IBM" (.success
      (Json.obj [("Global Quote", Json.obj []), ("bestMatches", Json.arr [])])) =
      .error (.alphaVantage ("No data found for symbol " ++ "IBM")) ∧
    AlphaVantageClient.search_symbols "Apple" (.success
      (Json.obj [("Global Quote", Json.obj []), ("bestMatches", Json.arr [])])) =
      .error (.alphaVantage ("No symbols found for \x27" ++ "Apple" ++ "\x27")) ∧
    AlphaVantageClient.get_daily_prices "IBM" "compact" (.success
      (Json.obj [("Global Quote", Json.obj []), ("bestMatches", Json.arr [])])) =
      .error (.alphaVantage ("No daily data found for " ++ "IBM")) := by
  have h := c8_not_found_shares_base_class "IBM" "Apple"
    (Json.obj [("Global Quote", Json.obj []), ("bestMatches", Json.arr [])]) rfl rfl
  exact ⟨rfl, rfl, rfl, h.1 rfl, h.2.1 rfl, h.2.2.1 "compact" rfl⟩

theorem except_bind_error {α β : Type} (x : Except PyError α) (f : α → Except PyError β)
    (e : PyError) :
    (x >>= f) = .error e ↔ x = .error e ∨ ∃ a, x = .ok a ∧ f a = .error e := by
  cases x <;> simp [Bind.bind, Except.bind]

theorem getStrD_none {j : Json} {k d s : String} (hk : j.getKey? k = none)
    (h : j.getStrD k d = .ok s) : s = d := by
  rw [Json.getStrD, hk] at h
  exact (Except.ok.injEq .. ▸ h).symm

theorem getStrReq_error {j : Json} {k : String} {e : PyError}
    (h : j.getStrReq k = .error e) : e = .otherError "pydantic validation error" := by
  rw [Json.getStrReq] at h
  rcases hk : j.getKey? k with _ | v
  · rw [hk] at h
    simp at h
    exact h.symm
  · rcases v with s | kvs | xs <;> rw [hk] at h <;> simp at h <;> exact h.symm

theorem getStrReq_ok_isSome {j : Json} {k s : String} (h : j.getStrReq k = .ok s) :
    (j.getKey? k).isSome = true := by
  rcases hk : j.getKey? k with _ | v
  · rw [Json.getStrReq, hk] at h
    simp at h
  · rfl

theorem dailyPrice_ofJson_error (v : Json) (e : PyError)
    (h : DailyPrice.ofJson v = .error e) :
    e = .otherError "pydantic validation error" := by
  simp only [DailyPrice.ofJson, except_bind_error, pure, Except.pure] at h
  rcases h with h | ⟨a, _, h⟩
  · exact getStrReq_error h
  rcases h with h | ⟨b, _, h⟩
  · exact getStrReq_error h
  rcases h with h | ⟨c, _, h⟩
  · exact getStrReq_error h
  rcases h with h | ⟨d, _, h⟩
  · exact getStrReq_error h
  rcases h with h | ⟨f, _, h⟩
  · exact getStrReq_error h
  · simp at h

theorem dailyPrice_ofJson_ok_keys (v : Json) (dp : DailyPrice)
    (h : DailyPrice.ofJson v = .ok dp) :
    (v.getKey? "1. open").isSome = true ∧ (v.getKey? "2. high").isSome = true ∧
    (v.getKey? "3. low").isSome = true ∧ (v.getKey? "4. close").isSome = true ∧
    (v.getKey? "5. volume").isSome = true := by
  simp only [DailyPrice.ofJson, except_bind_ok, pure, Except.pure] at h
  obtain ⟨a, ha, b, hb, c, hc, d, hd, f, hf, _⟩ := h
  exact ⟨getStrReq_ok_isSome ha, getStrReq_ok_isSome hb, getStrReq_ok_isSome hc,
    getStrReq_ok_isSome hd, getStrReq_ok_isSome hf⟩

/-- C9 counterexample: a present match object with an absent `"2. name"`
sub-field maps to the empty string, not to the `"N/A"` sentinel, and a
daily bar with absent sub-fields is a pydantic validation error rather
than a record of `"N/A"` sentinels, refuting the claim for two of the
three record kinds it covers. -/
theorem c9_counterexample :
    AlphaVantageClient.search_symbols "Apple"
      (.success (Json.obj [("bestMatches",
        Json.arr [Json.obj [("1. symbol", Json.str "AAPL")]])])) =
      .ok [{ symbol := "AAPL", name := "", type := "", region := "",
             currency := "" }] ∧
    DailyPrice.ofJson (Json.obj [("1. open", Json.str "1")]) =
      .error (.otherError "pydantic validation error") :=
  ⟨rfl, rfl⟩

/-- C9 (amended): the `"N/A"` sentinel for absent sub-fields applies to
the quote mapping only; the symbol-match mapping falls back to the empty
string, and a daily price bar has no fallback at all — an absent
sub-field there raises a pydantic validation error. -/
theorem c9_absent_subfield_fallbacks :
    (∀ sym : String, ∀ q : Json, ∀ out : StockQuote,
      StockQuote.ofJson sym q = .ok out →
      (q.getKey? "05. price" = none → out.price = "N/A") ∧
      (q.getKey? "09. change" = none → out.change = "N/A") ∧
      (q.getKey? "10. change percent" = none → out.change_percent = "N/A") ∧
      (q.getKey? "06. volume" = none → out.volume = "N/A") ∧
      (q.getKey? "07. latest trading day" = none → out.latest_trading_day = "N/A") ∧
      (q.getKey? "08. previous close" = none → out.previous_close = "N/A") ∧
      (q.getKey? "02. open" = none → out.open_ = "N/A") ∧
      (q.getKey? "03. high" = none → out.high = "N/A") ∧
      (q.getKey? "04. low" = none → out.low = "N/A")) ∧
    (∀ m : Json, ∀ out : SymbolMatch, SymbolMatch.ofJson m = .ok out →
      (m.getKey? "1. symbol" = none → out.symbol = "") ∧
      (m.getKey? "2. name" = none → out.name = "") ∧
      (m.getKey? "3. type" = none → out.type = "") ∧
      (m.getKey? "4. region" = none → out.region = "") ∧
      (m.getKey? "8. currency" = none → out.currency = "")) ∧
    (∀ v : Json,
      (v.getKey? "1. open" = none ∨ v.getKey? "2. high" = none ∨
       v.getKey? "3. low" = none ∨ v.getKey? "4. close" = none ∨
       v.getKey? "5. volume" = none) →
      DailyPrice.ofJson v = .error (.otherError "pydantic validation error")) := by
  refine ⟨?_, ?_, ?_⟩
  · intro sym q out h
    rcases q with s | kvs | xs
    · simp [StockQuote.ofJson] at h
    · simp only [StockQuote.ofJson, except_bind_ok, pure, Except.pure,
        Except.ok.injEq] at h
      obtain ⟨p1, h1, p2, h2, p3, h3, p4, h4, p5, h5, p6, h6, p7, h7, p8, h8, p9,
        h9, hout⟩ := h
      subst hout
      exact ⟨fun hk => getStrD_none hk h1, fun hk => getStrD_none hk h2,
        fun hk => getStrD_none hk h3, fun hk => getStrD_none hk h4,
        fun hk => getStrD_none hk h5, fun hk => getStrD_none hk h6,
        fun hk => getStrD_none hk h7, fun hk => getStrD_none hk h8,
        fun hk => getStrD_none hk h9⟩
    · simp [StockQuote.ofJson] at h
  · intro m out h
    rcases m with s | kvs | xs
    · simp [SymbolMatch.ofJson] at h
    · simp only [SymbolMatch.ofJson, except_bind_ok, pure, Except.pure,
        Except.ok.injEq] at h
      obtain ⟨p1, h1, p2, h2, p3, h3, p4, h4, p5, h5, hout⟩ := h
      subst hout
      exact ⟨fun hk => getStrD_none hk h1, fun hk => getStrD_none hk h2,
        fun hk => getStrD_none hk h3, fun hk => getStrD_none hk h4,
        fun hk => getStrD_none hk h5⟩
    · simp [SymbolMatch.ofJson] at h
  · intro v hmiss
    cases hr : DailyPrice.ofJson v with
    | error e => rw [dailyPrice_ofJson_error v e hr]
    | ok dp =>
      have hkeys := dailyPrice_ofJson_ok_keys v dp hr
      rcases hmiss with h | h | h | h | h <;> rw [h] at hkeys <;> simp at hkeys

/-- C9 witness: a quote object carrying only a price maps to a record
whose other eight fields are the verbatim `"N/A"` sentinel. -/
theorem c9_witness :
    StockQuote.ofJson "ibm" (Json.obj [("05. price", Json.str "182.45")]) =
      .ok { symbol := "IBM", price := "182.45", change := "N/A",
            change_percent := "N/A", volume := "N/A", latest_trading_day := "N/A",
            previous_close := "N/A", open_ := "N/A", high := "N/A", low := "N/A" } ∧
    (Json.obj [("05. price", Json.str "182.45")]).getKey? "09. change" = none ∧
    ({ symbol := "IBM", price := "182.45", change := "N/A",
       change_percent := "N/A", volume := "N/A", latest_trading_day := "N/A",
       previous_close := "N/A", open_ := "N/A", high := "N/A",
       low := "N/A" } : StockQuote).change = "N/A" := by
  refine ⟨by decide, rfl, ?_⟩
  exact ((c9_absent_subfield_fallbacks.1 "ibm"
    (Json.obj [("05. price", Json.str "182.45")]) _ (by decide)).2.1 rfl)

/-- C4: the ranking sort used by `analyze_top_performers` (a Python stable
`sort` with `reverse=True`) is descending in the selected metric
(change_percent or volume), and entries with equal metric values keep
their original input order: for every metric value, the sublist of
entries carrying that value is unchanged by the sort. -/
theorem c4_rank_descending_stable (l : List PerformerMetrics) (v : Rat) (w : Int) :
    (pySortDescBy (fun x => x.change_percent) l).Pairwise
      (fun a b => b.change_percent ≤ a.change_percent) ∧
    (pySortDescBy (fun x => x.volume) l).Pairwise
      (fun a b => b.volume ≤ a.volume) ∧
    ((pySortDescBy (fun x => x.change_percent) l).filter
      (fun a => a.change_percent = v)) = l.filter (fun a => a.change_percent = v) ∧
    ((pySortDescBy (fun x => x.volume) l).filter
      (fun a => a.volume = w)) = l.filter (fun a => a.volume = w) ∧
    (∀ (fetch : String → Option StockQuote) (symbols : String) (limit : Int)
       (r : TopPerformersResult),
      (Server.analyze_top_performers fetch symbols limit "change_percent").result =
        .ok r →
      r.performers.Pairwise (fun a b => b.change_percent ≤ a.change_percent)) ∧
    (∀ (fetch : String → Option StockQuote) (symbols : String) (limit : Int)
       (r : TopPerformersResult),
      (Server.analyze_top_performers fetch symbols limit "volume").result = .ok r →
      r.performers.Pairwise (fun a b => b.volume ≤ a.volume)) := by
  refine ⟨sorted_pySortDescBy (fun x => x.change_percent) l,
    sorted_pySortDescBy (fun x => x.volume) l,
    filter_pySortDescBy (fun x => x.change_percent) v l,
    filter_pySortDescBy (fun x => x.volume) w l, ?_, ?_⟩
  · intro fetch symbols limit r h
    simp only [Server.analyze_top_performers] at h
    split at h
    · simp at h
    · split at h
      · simp at h
      · split at h
        · simp at h
        · split at h
          · simp at h
          · split at h
            · simp at h
            · simp only [reduceIte, Except.ok.injEq] at h
              subst h
              exact List.Pairwise.sublist
                (by simp only [pyTake]; split <;> exact List.take_sublist _ _)
                (sorted_pySortDescBy (fun x => x.change_percent)
                  (List.filterMap performerOfQuote
                    (AlphaVantageClient.get_batch_quotes fetch
                      (parse_symbol_list symbols))))
  · intro fetch symbols limit r h
    simp only [Server.analyze_top_performers] at h
    split at h
    · simp at h
    · split at h
      · simp at h
      · split at h
        · simp at h
        · split at h
          · simp at h
          · split at h
            · simp at h
            · simp only [reduceIte, Except.ok.injEq] at h
              subst h
              exact List.Pairwise.sublist
                (by simp only [pyTake]; split <;> exact List.take_sublist _ _)
                (sorted_pySortDescBy (fun x => x.volume)
                  (List.filterMap performerOfQuote
                    (AlphaVantageClient.get_batch_quotes fetch
                      (parse_symbol_list symbols))))

/-- C4 witness: a concrete successful volume ranking comes back sorted
descending (volume 70 above volume 50). -/
theorem c4_witness :
    (Server.analyze_top_performers fetchEx "AAA,CCC" 10 "volume").result =
      .ok { period := "1day", metric := "volume",
            performers := [performerA, performerC], count := 2,
            analyzed_count := 2 } ∧
    List.Pairwise (fun a b => b.volume ≤ a.volume) [performerA, performerC] := by
  refine ⟨by decide, ?_⟩
  exact (c4_rank_descending_stable [] 0 0).2.2.2.2.2 fetchEx "AAA,CCC" 10
    { period := "1day", metric := "volume", performers := [performerA, performerC],
      count := 2, analyzed_count := 2 } (by decide)

theorem mem_pyTake {α : Type} {p : α} {limit : Int} {l : List α}
    (h : p ∈ pyTake limit l) : p ∈ l := by
  rw [pyTake] at h
  split at h <;> exact List.take_subset _ _ h

theorem performerOfQuote_fields (q : StockQuote) (p : PerformerMetrics)
    (h : performerOfQuote q = some p) :
    parseFloat? q.price = some p.current_price ∧
    parseFloat? q.previous_close = some p.previous_close ∧
    parseFloat? q.change = some p.change ∧
    parseInt? q.volume = some p.volume ∧
    p.symbol = q.symbol ∧ p.period = "1day" ∧
    p.change_percent =
      (if p.previous_close > 0 then p.change / p.previous_close * 100 else 0) := by
  rcases h1 : parseFloat? q.price with _ | cp
  · simp [performerOfQuote, Bind.bind, Option.bind, h1] at h
  rcases h2 : parseFloat? q.previous_close with _ | pc
  · simp [performerOfQuote, Bind.bind, Option.bind, h1, h2] at h
  rcases h3 : parseFloat? q.change with _ | ch
  · simp [performerOfQuote, Bind.bind, Option.bind, h1, h2, h3] at h
  rcases h4 : parseInt? q.volume with _ | vol
  · simp [performerOfQuote, Bind.bind, Option.bind, h1, h2, h3, h4] at h
  simp only [performerOfQuote, Bind.bind, Option.bind, h1, h2, h3, h4] at h
  injection h with h
  subst h
  exact ⟨rfl, rfl, rfl, rfl, rfl, rfl, rfl⟩

theorem analyze_result_ok (fetch : String → Option StockQuote) (symbols : String)
    (limit : Int) (metric : String) (r : TopPerformersResult)
    (h : (Server.analyze_top_performers fetch symbols limit metric).result = .ok r) :
    r.performers = pyTake limit (if metric = "change_percent"
        then pySortDescBy (fun x => x.change_percent)
          ((AlphaVantageClient.get_batch_quotes fetch
            (parse_symbol_list symbols)).filterMap performerOfQuote)
        else pySortDescBy (fun x => x.volume)
          ((AlphaVantageClient.get_batch_quotes fetch
            (parse_symbol_list symbols)).filterMap performerOfQuote)) ∧
    r.analyzed_count = ((AlphaVantageClient.get_batch_quotes fetch
      (parse_symbol_list symbols)).filterMap performerOfQuote).length ∧
    r.count = r.performers.length ∧
    r.metric = metric ∧
    parse_symbol_list symbols ≠ [] ∧
    (parse_symbol_list symbols).length ≤ 50 ∧
    (metric = "change_percent" ∨ metric = "volume") ∧
    AlphaVantageClient.get_batch_quotes fetch (parse_symbol_list symbols) ≠ [] ∧
    ((AlphaVantageClient.get_batch_quotes fetch
      (parse_symbol_list symbols)).filterMap performerOfQuote) ≠ [] := by
  simp only [Server.analyze_top_performers] at h
  split at h
  · simp at h
  · split at h
    · simp at h
    · split at h
      · simp at h
      · split at h
        · simp at h
        · split at h
          · simp at h
          · rename_i h1 h2 h3 h4 h5
            simp only [Except.ok.injEq] at h
            subst h
            refine ⟨rfl, rfl, rfl, rfl, ?_, ?_, ?_, ?_, ?_⟩
            · simpa [List.isEmpty_iff] using h1
            · omega
            · rcases Bool.and_eq_false_iff.mp (Bool.not_eq_true _ |>.mp h3) with hx | hx
              · exact .inl (by simpa using hx)
              · exact .inr (by simpa using hx)
            · simpa [List.isEmpty_iff] using h4
            · simpa [List.isEmpty_iff] using h5

/-- C3: the ranking path recomputes `change_percent` as
`change / previous_close * 100` (0.0 when the previous close is not
positive) from the parsed numeric fields; the provider's own
`change_percent` string is never consulted, and every performer record in
a successful ranking result carries exactly the recomputed value. -/
theorem c3_change_percent_recomputed :
    (∀ (q : StockQuote) (p : PerformerMetrics), performerOfQuote q = some p →
      parseFloat? q.previous_close = some p.previous_close ∧
      parseFloat? q.change = some p.change ∧
      p.change_percent =
        (if p.previous_close > 0 then p.change / p.previous_close * 100 else 0)) ∧
    (∀ (q : StockQuote) (s : String),
      performerOfQuote { q with change_percent := s } = performerOfQuote q) ∧
    (∀ (fetch : String → Option StockQuote) (symbols : String) (limit : Int)
       (metric : String) (r : TopPerformersResult),
      (Server.analyze_top_performers fetch symbols limit metric).result = .ok r →
      ∀ p ∈ r.performers,
        p.change_percent =
          (if p.previous_close > 0 then p.change / p.previous_close * 100 else 0)) := by
  refine ⟨?_, ?_, ?_⟩
  · intro q p h
    have hf := performerOfQuote_fields q p h
    exact ⟨hf.2.1, hf.2.2.1, hf.2.2.2.2.2.2⟩
  · intro q s
    rfl
  · intro fetch symbols limit metric r h p hp
    obtain ⟨hperf, -⟩ := analyze_result_ok fetch symbols limit metric r h
    rw [hperf] at hp
    have hp2 := mem_pyTake hp
    have hp3 : p ∈ (AlphaVantageClient.get_batch_quotes fetch
        (parse_symbol_list symbols)).filterMap performerOfQuote := by
      split at hp2 <;> simpa [pySortDescBy] using hp2
    obtain ⟨q, _, hqp⟩ := List.mem_filterMap.mp hp3
    exact (performerOfQuote_fields q p hqp).2.2.2.2.2.2

/-- C3 witness: concrete quotes whose previous close is zero rank with the
recomputed `change_percent = 0.0`, not with the provider's `"1.30%"`
string. -/
theorem c3_witness :
    performerOfQuote quoteA = some performerA ∧
    parseFloat? quoteA.previous_close = some performerA.previous_close ∧
    performerA.change_percent =
      (if performerA.previous_close > 0
        then performerA.change / performerA.previous_close * 100 else 0) ∧
    (Server.analyze_top_performers fetchEx "AAA,CCC" 10 "volume").result =
      .ok { period := "1day", metric := "volume",
            performers := [performerA, performerC], count := 2,
            analyzed_count := 2 } ∧
    performerC.change_percent =
      (if performerC.previous_close > 0
        then performerC.change / performerC.previous_close * 100 else 0) := by
  refine ⟨by decide, ?_, ?_, by decide, ?_⟩
  · exact (c3_change_percent_recomputed.1 quoteA performerA (by decide)).1
  · exact (c3_change_percent_recomputed.1 quoteA performerA (by decide)).2.2
  · exact (c3_change_percent_recomputed.2.2 fetchEx "AAA,CCC" 10 "volume"
      { period := "1day", metric := "volume",
        performers := [performerA, performerC], count := 2, analyzed_count := 2 }
      (by decide) performerC (by decide))

theorem length_filterMap_all_some {γ δ : Type} (f : γ → Option δ) :
    ∀ l : List γ, (∀ x ∈ l, (f x).isSome = true) → (l.filterMap f).length = l.length
  | [], _ => rfl
  | x :: l, h => by
    obtain ⟨y, hy⟩ := Option.isSome_iff_exists.mp (h x (List.mem_cons_self x l))
    rw [List.filterMap_cons, hy]
    simpa using length_filterMap_all_some f l
      (fun z hz => h z (List.mem_cons_of_mem x hz))

theorem map_symbol_filterMap_performer :
    ∀ quotes : List StockQuote,
      (∀ q ∈ quotes, (performerOfQuote q).isSome = true) →
      ((quotes.filterMap performerOfQuote).map (fun p => p.symbol)) =
        quotes.map (fun q => q.symbol)
  | [], _ => rfl
  | q :: qs, h => by
    obtain ⟨p, hp⟩ := Option.isSome_iff_exists.mp (h q (List.mem_cons_self q qs))
    have hsym : p.symbol = q.symbol := (performerOfQuote_fields q p hp).2.2.2.2.1
    rw [List.filterMap_cons, hp, List.map_cons, List.map_cons, hsym,
      map_symbol_filterMap_performer qs (fun z hz => h z (List.mem_cons_of_mem q hz))]

theorem get_batch_quotes_map_symbol (fetch : String → Option StockQuote)
    (hsym : ∀ s q, fetch s = some q → q.symbol = s) :
    ∀ symbols : List String,
      ((AlphaVantageClient.get_batch_quotes fetch symbols).map (fun q => q.symbol)) =
        symbols.filter (fun s => (fetch s).isSome)
  | [] => rfl
  | s :: ss => by
    cases hf : fetch s with
    | none =>
      simp only [AlphaVantageClient.get_batch_quotes, List.filterMap_cons, hf,
        List.filter_cons, Option.isSome_none, Bool.false_eq_true, if_false]
      exact get_batch_quotes_map_symbol fetch hsym ss
    | some q =>
      simp only [AlphaVantageClient.get_batch_quotes, List.filterMap_cons, hf,
        List.filter_cons, Option.isSome_some, if_true, List.map_cons]
      rw [hsym s q hf]
      exact congrArg (s :: ·) (get_batch_quotes_map_symbol fetch hsym ss)

/-- C2: with a valid symbol list and metric, per-symbol fetch failures are
absorbed: as long as at least one symbol succeeds (and the fetched quotes
parse, with `limit` large enough to show the whole ranking), the batch
returns a ranked result whose `analyzed_count` is exactly the number of
symbols whose fetch succeeded and whose performer records carry exactly
the successful symbols; the batch as a whole fails with the
no-data-available error only when every symbol fails. -/
theorem c2_per_symbol_failures_absorbed
    (fetch : String → Option StockQuote) (symbols : String) (limit : Int)
    (metric : String) :
    ((parse_symbol_list symbols ≠ []) →
     ((parse_symbol_list symbols).length ≤ 50) →
     (metric = "change_percent" ∨ metric = "volume") →
     (∀ s q, fetch s = some q → q.symbol = s) →
     (∀ s ∈ parse_symbol_list symbols, ∀ q, fetch s = some q →
        (performerOfQuote q).isSome = true) →
     ((parse_symbol_list symbols).filter (fun s => (fetch s).isSome) ≠ []) →
     (0 ≤ limit) →
     ((parse_symbol_list symbols).length ≤ limit.toNat) →
     ∃ r, (Server.analyze_top_performers fetch symbols limit metric).result =
            .ok r ∧
       r.analyzed_count =
         ((parse_symbol_list symbols).filter (fun s => (fetch s).isSome)).length ∧
       List.Perm (r.performers.map (fun p => p.symbol))
         ((parse_symbol_list symbols).filter (fun s => (fetch s).isSome))) ∧
    ((parse_symbol_list symbols ≠ []) →
     ((parse_symbol_list symbols).length ≤ 50) →
     (metric = "change_percent" ∨ metric = "volume") →
     (∀ s ∈ parse_symbol_list symbols, fetch s = none) →
     (Server.analyze_top_performers fetch symbols limit metric).result =
       .error { error := "Unable to fetch data for any of the provided symbols" }) := by
  constructor
  · intro h1 h2 h3 hsym hparse hsucc hl0 hl1
    have hif1 : (parse_symbol_list symbols).isEmpty = false := by
      simpa [List.isEmpty_iff] using h1
    have hif2 : ¬ ((parse_symbol_list symbols).length > 50) := by omega
    have hif3 : (decide (metric ≠ "change_percent") &&
        decide (metric ≠ "volume")) = false := by
      rcases h3 with h | h <;> simp [h]
    have hqsym := get_batch_quotes_map_symbol fetch hsym (parse_symbol_list symbols)
    have hqlen : (AlphaVantageClient.get_batch_quotes fetch
        (parse_symbol_list symbols)).length =
        ((parse_symbol_list symbols).filter (fun s => (fetch s).isSome)).length := by
      rw [← hqsym, List.length_map]
    have hqne : AlphaVantageClient.get_batch_quotes fetch
        (parse_symbol_list symbols) ≠ [] := by
      intro hx
      apply hsucc
      have := hqlen
      rw [hx] at this
      exact List.eq_nil_of_length_eq_zero this.symm
    have hall : ∀ q ∈ AlphaVantageClient.get_batch_quotes fetch
        (parse_symbol_list symbols), (performerOfQuote q).isSome = true := by
      intro q hq
      obtain ⟨s, hs, hfs⟩ := List.mem_filterMap.mp hq
      exact hparse s hs q hfs
    have hplen : ((AlphaVantageClient.get_batch_quotes fetch
        (parse_symbol_list symbols)).filterMap performerOfQuote).length =
        (AlphaVantageClient.get_batch_quotes fetch
          (parse_symbol_list symbols)).length :=
      length_filterMap_all_some performerOfQuote _ hall
    have hpne : (AlphaVantageClient.get_batch_quotes fetch
        (parse_symbol_list symbols)).filterMap performerOfQuote ≠ [] := by
      intro hx
      apply hqne
      rw [hx] at hplen
      exact List.eq_nil_of_length_eq_zero hplen.symm
    have hif4 : (AlphaVantageClient.get_batch_quotes fetch
        (parse_symbol_list symbols)).isEmpty = false := by
      simpa [List.isEmpty_iff] using hqne
    have hif5 : ((AlphaVantageClient.get_batch_quotes fetch
        (parse_symbol_list symbols)).filterMap performerOfQuote).isEmpty = false := by
      simpa [List.isEmpty_iff] using hpne
    have hrun : (Server.analyze_top_performers fetch symbols limit metric).result =
        .ok { period := "1day", metric := metric,
              performers := pyTake limit (if metric = "change_percent"
                then pySortDescBy (fun x => x.change_percent)
                  ((AlphaVantageClient.get_batch_quotes fetch
                    (parse_symbol_list symbols)).filterMap performerOfQuote)
                else pySortDescBy (fun x => x.volume)
                  ((AlphaVantageClient.get_batch_quotes fetch
                    (parse_symbol_list symbols)).filterMap performerOfQuote)),
              count := (pyTake limit (if metric = "change_percent"
                then pySortDescBy (fun x => x.change_percent)
                  ((AlphaVantageClient.get_batch_quotes fetch
                    (parse_symbol_list symbols)).filterMap performerOfQuote)
                else pySortDescBy (fun x => x.volume)
                  ((AlphaVantageClient.get_batch_quotes fetch
                    (parse_symbol_list symbols)).filterMap performerOfQuote))).length,
              analyzed_count := ((AlphaVantageClient.get_batch_quotes fetch
                (parse_symbol_list symbols)).filterMap performerOfQuote).length } := by
      simp only [Server.analyze_top_performers, hif1, hif2, hif3, hif4, hif5,
        Bool.false_eq_true, if_false]
    refine ⟨_, hrun, ?_, ?_⟩
    · exact hplen.trans hqlen
    · show ((pyTake limit (if metric = "change_percent"
          then pySortDescBy (fun x => x.change_percent)
            ((AlphaVantageClient.get_batch_quotes fetch
              (parse_symbol_list symbols)).filterMap performerOfQuote)
          else pySortDescBy (fun x => x.volume)
            ((AlphaVantageClient.get_batch_quotes fetch
              (parse_symbol_list symbols)).filterMap performerOfQuote))).map
            (fun p => p.symbol)).Perm _
      have hsortlen : ∀ sorted : List PerformerMetrics,
          List.Perm sorted ((AlphaVantageClient.get_batch_quotes fetch
            (parse_symbol_list symbols)).filterMap performerOfQuote) →
          (pyTake limit sorted) = sorted := by
        intro sorted hperm
        rw [pyTake, if_pos hl0]
        apply List.take_of_length_le
        rw [hperm.length_eq, hplen, hqlen]
        calc ((parse_symbol_list symbols).filter
              (fun s => (fetch s).isSome)).length
            ≤ (parse_symbol_list symbols).length :=
              List.length_filter_le _ _
          _ ≤ limit.toNat := hl1
      have hmapsym : (((AlphaVantageClient.get_batch_quotes fetch
          (parse_symbol_list symbols)).filterMap performerOfQuote).map
            (fun p => p.symbol)) =
          (parse_symbol_list symbols).filter (fun s => (fetch s).isSome) :=
        (map_symbol_filterMap_performer _ hall).trans hqsym
      split
      · rw [hsortlen _ (perm_pySortDescBy _ _)]
        exact (List.Perm.map _ (perm_pySortDescBy _ _)).trans (hmapsym ▸ .refl _)
      · rw [hsortlen _ (perm_pySortDescBy _ _)]
        exact (List.Perm.map _ (perm_pySortDescBy _ _)).trans (hmapsym ▸ .refl _)
  · intro h1 h2 h3 hnone
    have hif1 : (parse_symbol_list symbols).isEmpty = false := by
      simpa [List.isEmpty_iff] using h1
    have hif2 : ¬ ((parse_symbol_list symbols).length > 50) := by omega
    have hif3 : (decide (metric ≠ "change_percent") &&
        decide (metric ≠ "volume")) = false := by
      rcases h3 with h | h <;> simp [h]
    have hq : AlphaVantageClient.get_batch_quotes fetch
        (parse_symbol_list symbols) = [] := by
      exact List.filterMap_eq_nil_iff.mpr hnone
    simp only [Server.analyze_top_performers, hif1, hif2, hif3, hq,
      Bool.false_eq_true, if_false, List.isEmpty_nil, if_true]

/-- C2 witness: with "BBB" failing out of AAA,BBB,CCC the batch succeeds
with `analyzed_count = 2` and performer symbols exactly AAA and CCC; with
every symbol failing the batch fails with the no-data error. -/
theorem c2_witness :
    parse_symbol_list "AAA,BBB,CCC" ≠ [] ∧
    fetchEx "BBB" = none ∧
    ((parse_symbol_list "AAA,BBB,CCC").filter (fun s => (fetchEx s).isSome)) =
      ["AAA", "CCC"] ∧
    (∃ r, (Server.analyze_top_performers fetchEx "AAA,BBB,CCC" 10 "volume").result =
        .ok r ∧
      r.analyzed_count = ((parse_symbol_list "AAA,BBB,CCC").filter
        (fun s => (fetchEx s).isSome)).length ∧
      List.Perm (r.performers.map (fun p => p.symbol))
        ((parse_symbol_list "AAA,BBB,CCC").filter (fun s => (fetchEx s).isSome))) ∧
    (Server.analyze_top_performers (fun _ => none) "AAA,BBB,CCC" 10 "volume").result =
      .error { error := "Unable to fetch data for any of the provided symbols" } := by
  have hsym : ∀ s q, fetchEx s = some q → q.symbol = s := by
    intro s q h
    by_cases hA : s = "AAA"
    · subst hA
      simp [fetchEx] at h
      rw [← h]
      rfl
    · by_cases hC : s = "CCC"
      · subst hC
        simp [fetchEx] at h
        rw [← h]
        rfl
      · simp [fetchEx, hA, hC] at h
  have hparse : ∀ s ∈ parse_symbol_list "AAA,BBB,CCC", ∀ q, fetchEx s = some q →
      (performerOfQuote q).isSome = true := by
    intro s hs q h
    by_cases hA : s = "AAA"
    · subst hA
      simp [fetchEx] at h
      rw [← h]
      decide
    · by_cases hC : s = "CCC"
      · subst hC
        simp [fetchEx] at h
        rw [← h]
        decide
      · simp [fetchEx, hA, hC] at h
  refine ⟨by decide, by decide, by decide, ?_, ?_⟩
  · exact (c2_per_symbol_failures_absorbed fetchEx "AAA,BBB,CCC" 10 "volume").1
      (by decide) (by decide) (.inr rfl) hsym hparse (by decide) (by decide)
      (by decide)
  · exact (c2_per_symbol_failures_absorbed (fun _ => none) "AAA,BBB,CCC" 10
      "volume").2 (by decide) (by decide) (.inr rfl) (fun s _ => rfl)

theorem make_request_ok_eq {o : HttpOutcome} {d : Json}
    (h : AlphaVantageClient.make_request o = .ok d) : o = .success d := by
  cases o with
  | timeout => simp [AlphaVantageClient.make_request] at h
  | requestFailed m => simp [AlphaVantageClient.make_request] at h
  | success body =>
    simp only [AlphaVantageClient.make_request] at h
    split at h
    · simp at h
    · split at h
      · simp at h
      · simp only [Except.ok.injEq] at h
        rw [h]

theorem mapExcept_pair_keys {δ : Type} (f : Json → Except PyError δ) :
    ∀ (kvs : List (String × Json)) (parsed : List (String × δ)),
      mapExcept (fun kv => do let dp ← f kv.2; pure (kv.1, dp)) kvs = .ok parsed →
      parsed.map Prod.fst = kvs.map Prod.fst
  | [], parsed, h => by
    simp only [mapExcept, Except.ok.injEq] at h
    rw [← h]
    rfl
  | kv :: kvs, parsed, h => by
    simp only [mapExcept, except_bind_ok, pure, Except.pure, Except.ok.injEq] at h
    obtain ⟨a, ⟨dp, _, ha⟩, ys, hys, hp⟩ := h
    subst hp
    subst ha
    simp only [List.map_cons]
    rw [mapExcept_pair_keys f kvs ys hys]

/-- C6: a successful daily-price call over a series with dates `kvs`
returns at most 5 dated entries, reports `total_days_available` as the
full series size (hence at least the window length), presents the window
in descending date order, and the window consists of the largest date
keys: any date of the series left out of the window compares
less-or-equal to every date inside it. -/
theorem c6_daily_window (sym osz : String) (body : Json)
    (kvs : List (String × Json)) (res : DailyData)
    (hts : body.getKey? "Time Series (Daily)" = some (Json.obj kvs))
    (h : AlphaVantageClient.get_daily_prices sym osz (.success body) = .ok res) :
    res.recent_days.length ≤ 5 ∧
    res.total_days_available = kvs.length ∧
    res.recent_days.length ≤ res.total_days_available ∧
    (res.recent_days.map Prod.fst).Pairwise strGe ∧
    (∀ d ∈ kvs.map Prod.fst, d ∉ res.recent_days.map Prod.fst →
      ∀ e ∈ res.recent_days.map Prod.fst, strLe d e) := by
  simp only [AlphaVantageClient.get_daily_prices] at h
  rw [except_bind_ok] at h
  obtain ⟨data, hm, h⟩ := h
  have hsucc : HttpOutcome.success body = HttpOutcome.success data :=
    make_request_ok_eq hm
  injection hsucc with hbd
  subst hbd
  by_cases hk : kvs.isEmpty
  · simp [hts, Option.getD_some, Json.isFalsy, hk] at h
  simp only [hts, Option.getD_some, Json.isFalsy, hk, Bool.false_eq_true,
    if_false] at h
  rw [except_bind_ok] at h
  obtain ⟨parsed, hparsed, hres⟩ := h
  simp only [pure, Except.pure, Except.ok.injEq] at hres
  subst hres
  have hkeys : parsed.map Prod.fst = kvs.map Prod.fst :=
    mapExcept_pair_keys DailyPrice.ofJson kvs parsed hparsed
  have hmem : ∀ d ∈ (pySortDesc (parsed.map Prod.fst)).take 5,
      d ∈ parsed.map Prod.fst := by
    intro d hd
    exact ((perm_pySortDesc (parsed.map Prod.fst)).mem_iff).mp
      (List.take_subset _ _ hd)
  have hfst : ((((pySortDesc (parsed.map Prod.fst)).take 5).filterMap
      (fun d => (parsed.lookup d).map (fun dp => (d, dp)))).map Prod.fst) =
      (pySortDesc (parsed.map Prod.fst)).take 5 :=
    map_fst_filterMap_lookup parsed _ hmem
  have hlen : ((((pySortDesc (parsed.map Prod.fst)).take 5).filterMap
      (fun d => (parsed.lookup d).map (fun dp => (d, dp))))).length =
      ((pySortDesc (parsed.map Prod.fst)).take 5).length := by
    have := congrArg List.length hfst
    rwa [List.length_map] at this
  have hplen : parsed.length = kvs.length := by
    have := congrArg List.length hkeys
    rwa [List.length_map, List.length_map] at this
  have hsorted := sorted_pySortDesc (parsed.map Prod.fst)
  refine ⟨?_, rfl, ?_, ?_, ?_⟩
  · rw [hlen]
    exact List.length_take_le 5 _
  · show _ ≤ kvs.length
    rw [hlen]
    calc ((pySortDesc (parsed.map Prod.fst)).take 5).length
        ≤ (pySortDesc (parsed.map Prod.fst)).length := by
          rw [List.length_take]
          exact min_le_right _ _
      _ = (parsed.map Prod.fst).length :=
          (perm_pySortDesc (parsed.map Prod.fst)).length_eq
      _ = parsed.length := List.length_map _ _
      _ = kvs.length := hplen
  · show ((((pySortDesc (parsed.map Prod.fst)).take 5).filterMap
        (fun d => (parsed.lookup d).map (fun dp => (d, dp)))).map
          Prod.fst).Pairwise strGe
    rw [hfst]
    exact List.Pairwise.sublist (List.take_sublist _ _) hsorted
  · intro d hd hnot e he
    have he2 : e ∈ (pySortDesc (parsed.map Prod.fst)).take 5 := by
      rw [← hfst]
      exact he
    have hnot2 : d ∉ (pySortDesc (parsed.map Prod.fst)).take 5 := by
      rw [← hfst]
      exact hnot
    have hdp : d ∈ parsed.map Prod.fst := by
      rw [hkeys]
      exact hd
    have hdS : d ∈ pySortDesc (parsed.map Prod.fst) :=
      ((perm_pySortDesc (parsed.map Prod.fst)).mem_iff).mpr hdp
    have hdS2 : d ∈ (pySortDesc (parsed.map Prod.fst)).take 5 ++
        (pySortDesc (parsed.map Prod.fst)).drop 5 := by
      rw [List.take_append_drop]
      exact hdS
    rcases List.mem_append.mp hdS2 with h5 | h5
    · exact absurd h5 hnot2
    have hsplit : ((pySortDesc (parsed.map Prod.fst)).take 5 ++
        (pySortDesc (parsed.map Prod.fst)).drop 5).Pairwise strGe := by
      rw [List.take_append_drop]
      exact hsorted
    exact (List.pairwise_append.mp hsplit).2.2 e he2 d h5

set_option maxRecDepth 8192 in
/-- C6 witness: a six-day series returns the five most recent dates in
descending order, with `total_days_available = 6`, and the dropped date
2024-01-10 compares below every retained date. -/
theorem c6_witness :
    dailyBodyEx.getKey? "Time Series (Daily)" = some (Json.obj dailyKvsEx) ∧
    AlphaVantageClient.get_daily_prices "aapl" "compact" (.success dailyBodyEx) =
      .ok dailyResEx ∧
    (dailyResEx.recent_days.length ≤ 5 ∧
     dailyResEx.total_days_available = dailyKvsEx.length ∧
     dailyResEx.recent_days.length ≤ dailyResEx.total_days_available ∧
     (dailyResEx.recent_days.map Prod.fst).Pairwise strGe ∧
     (∀ d ∈ dailyKvsEx.map Prod.fst, d ∉ dailyResEx.recent_days.map Prod.fst →
       ∀ e ∈ dailyResEx.recent_days.map Prod.fst, strLe d e)) := by
  have hrun : AlphaVantageClient.get_daily_prices "aapl" "compact"
      (.success dailyBodyEx) = .ok dailyResEx := by decide
  exact ⟨rfl, hrun,
    c6_daily_window "aapl" "compact" dailyBodyEx dailyKvsEx dailyResEx rfl hrun⟩
